import Mathlib

/-!
Verification of the Project Icarus hybrid secure channel (phase 3) and the
decoherence monitor / algorithm negotiator (phase 5).

Modelling conventions:
* Python `bytes` values are `List Nat` (each element one byte).
* Python hex strings (`bytes.hex()` / `bytes.fromhex`) are nibble lists:
  one byte becomes its two hex digits `[b / 16, b % 16]`.
* The external cryptographic primitives (liboqs ML-KEM, HKDF, AES-GCM and
  `os.urandom`) are a capability record passed to the channel functions;
  theorems assume only the contract the spec states for them.
  `os.urandom` is modelled by an explicit random byte stream argument;
  `AESGCM.decrypt` raising `InvalidTag` is modelled by an `Option` result.
* Python floats in phase 5 are modelled as exact rationals and the
  `random.gauss` sample of a step is an explicit oracle argument
  (`random.gauss 0 0` always returns `0.0`, so the zero-noise case is the
  argument `0`).
-/

/-- `bytes.hex()`: one byte becomes its high and low hex digit. -/
def hexEncode : List Nat → List Nat
  | [] => []
  | b :: rest => b / 16 :: b % 16 :: hexEncode rest

/-- `bytes.fromhex`: consume digit pairs. -/
def hexDecode : List Nat → List Nat
  | a :: b :: rest => (a * 16 + b) :: hexDecode rest
  | _ => []

theorem hexDecode_hexEncode (bs : List Nat) : hexDecode (hexEncode bs) = bs := by
  induction bs with
  | nil => rfl
  | cons b rest ih =>
      show (b / 16 * 16 + b % 16) :: hexDecode (hexEncode rest) = b :: rest
      rw [ih]
      congr 1
      omega

theorem hexEncode_injective : Function.Injective hexEncode := by
  intro a b h
  have := congrArg hexDecode h
  rwa [hexDecode_hexEncode, hexDecode_hexEncode] at this

/-- Flip bit `i` of a byte string: bit `i % 8` of byte `i / 8`. -/
def flipBit (bs : List Nat) (i : Nat) : List Nat :=
  bs.set (i / 8) (Nat.xor (bs.getD (i / 8) 0) (2 ^ (i % 8)))

/-- `cryptography.exceptions.InvalidTag`, surfaced by `decrypt_payload`. -/
inductive TunnelError where
  | AuthenticationFailed
deriving DecidableEq, Repr

/-- The external capability provider consumed by phase 3: liboqs ML-KEM
(`encap_secret` takes its encapsulation randomness explicitly), HKDF over
SHA3-256 (salt, output length, info, input key material) and AES-GCM
(key, nonce, plaintext/ciphertext, associated data); `aesgcmDecrypt`
returns `none` where the library raises `InvalidTag`. -/
structure Capability where
  encapSecret : String → List Nat → List Nat → List Nat × List Nat
  decapSecret : String → List Nat → List Nat → List Nat
  hkdfSHA3_256 : Option (List Nat) → Nat → List Nat → List Nat → List Nat
  aesgcmEncrypt : List Nat → List Nat → List Nat → List Nat → List Nat
  aesgcmDecrypt : List Nat → List Nat → List Nat → List Nat → Option (List Nat)

/-- The fixed HKDF domain-separation context `b"icarus-tunnel-v1"`. -/
def icarusContext : List Nat :=
  [105, 99, 97, 114, 117, 115, 45, 116, 117, 110, 110, 101, 108, 45, 118, 49]

/-- The fixed associated data `b"icarus-telemetry-channel"`. -/
def telemetryAAD : List Nat :=
  [105, 99, 97, 114, 117, 115, 45, 116, 101, 108, 101, 109, 101, 116, 114,
   121, 45, 99, 104, 97, 110, 110, 101, 108]

/-- `sender_encapsulate`: hex-decode the receiver's public key, encapsulate,
return the KEM ciphertext as hex together with the local shared secret.
`r` is the encapsulation randomness consumed by the KEM capability. -/
def sender_encapsulate (cap : Capability) (r : List Nat)
    (public_key_hex : List Nat) (algorithm : String) : List Nat × List Nat :=
  let public_key_bytes := hexDecode public_key_hex
  let p := cap.encapSecret algorithm public_key_bytes r
  (hexEncode p.1, p.2)

/-- `derive_aes_key`: one HKDF-SHA3-256 call, 32-byte output, no salt,
`context` as the info/domain separator. -/
def derive_aes_key (cap : Capability) (shared_secret : List Nat)
    (context : List Nat) : List Nat :=
  cap.hkdfSHA3_256 none 32 context shared_secret

/-- `encrypt_payload`: draw a 12-byte nonce from the random stream `r`
(`os.urandom(12)`), seal with AES-256-GCM under the constant AAD, return
`(nonce_hex, ciphertext_hex, aad)`. -/
def encrypt_payload (cap : Capability) (r : List Nat)
    (aes_key plaintext : List Nat) : List Nat × List Nat × List Nat :=
  let nonce := r.take 12
  let aad := telemetryAAD
  let ciphertext := cap.aesgcmEncrypt aes_key nonce plaintext aad
  (hexEncode nonce, hexEncode ciphertext, aad)

/-- `receiver_decapsulate`: hex-decode the private key and KEM ciphertext and
decapsulate the shared secret. -/
def receiver_decapsulate (cap : Capability)
    (private_key_hex ciphertext_kem_hex : List Nat) (algorithm : String) :
    List Nat :=
  cap.decapSecret algorithm (hexDecode private_key_hex)
    (hexDecode ciphertext_kem_hex)

/-- `decrypt_payload`: hex-decode nonce and ciphertext, open with AES-GCM;
an `InvalidTag` from the library is re-raised as `AuthenticationFailed` and
no plaintext is produced on that path. -/
def decrypt_payload (cap : Capability) (aes_key : List Nat)
    (nonce_hex ciphertext_hex aad : List Nat) :
    Except TunnelError (List Nat) :=
  match cap.aesgcmDecrypt aes_key (hexDecode nonce_hex)
      (hexDecode ciphertext_hex) aad with
  | some plaintext => Except.ok plaintext
  | none => Except.error TunnelError.AuthenticationFailed

/-- The phase-3 `__main__` pipeline with file/console I/O stripped: sender
encapsulates, derives, seals; receiver decapsulates, derives, opens.
Returns (sender shared secret, receiver shared secret, recovered plaintext).
`rEncap` is the KEM randomness, `rNonce` the `os.urandom` stream. -/
def phase3_main (cap : Capability) (rEncap rNonce : List Nat)
    (public_key_hex private_key_hex : List Nat) (algorithm : String)
    (plaintext : List Nat) :
    List Nat × List Nat × Except TunnelError (List Nat) :=
  let se := sender_encapsulate cap rEncap public_key_hex algorithm
  let aes_key_sender := derive_aes_key cap se.2 icarusContext
  let ep := encrypt_payload cap rNonce aes_key_sender plaintext
  let shared_secret_receiver :=
    receiver_decapsulate cap private_key_hex se.1 algorithm
  let aes_key_receiver := derive_aes_key cap shared_secret_receiver icarusContext
  let plaintext_recovered :=
    decrypt_payload cap aes_key_receiver ep.1 ep.2.1 ep.2.2
  (se.2, shared_secret_receiver, plaintext_recovered)

/-- C1: round-trip correctness of the hybrid channel. For an honestly
generated record (the hex key material encodes a matching ML-KEM key pair,
and the KEM and AEAD capabilities satisfy their contracts: decapsulation
with the matching private key recovers the encapsulated secret, and AEAD
open inverts seal under matching key, nonce and AAD), the receiver's
recovered plaintext equals the sender's original plaintext and the
receiver's shared secret equals the sender's, bit for bit. -/
theorem phase3_round_trip (cap : Capability) (alg : String)
    (pk sk plaintext rEncap rNonce : List Nat)
    (hkem : ∀ r, cap.decapSecret alg sk (cap.encapSecret alg pk r).1 =
      (cap.encapSecret alg pk r).2)
    (haead : ∀ k n pt ad,
      cap.aesgcmDecrypt k n (cap.aesgcmEncrypt k n pt ad) ad = some pt) :
    (phase3_main cap rEncap rNonce (hexEncode pk) (hexEncode sk) alg
        plaintext).2.2 = Except.ok plaintext ∧
    (phase3_main cap rEncap rNonce (hexEncode pk) (hexEncode sk) alg
        plaintext).1 =
      (phase3_main cap rEncap rNonce (hexEncode pk) (hexEncode sk) alg
        plaintext).2.1 := by
  simp only [phase3_main, sender_encapsulate, receiver_decapsulate,
    encrypt_payload, decrypt_payload, hexDecode_hexEncode]
  rw [hkem]
  rw [haead]
  exact ⟨rfl, rfl⟩

/-- A concrete capability provider satisfying the contracts used by the
round-trip theorem (the key pair `[1, 2]` / `[1, 2]` matches itself). -/
def capRoundTrip : Capability where
  encapSecret := fun _ pk r => (r, pk ++ r)
  decapSecret := fun _ sk ct => sk ++ ct
  hkdfSHA3_256 := fun _ len _ ikm => (ikm ++ List.replicate len 0).take len
  aesgcmEncrypt := fun _ _ pt _ => pt
  aesgcmDecrypt := fun _ _ ct _ => some ct

theorem phase3_round_trip_witness :
    (phase3_main capRoundTrip [9, 9] [3, 1, 4, 1, 5, 9, 2, 6, 5, 3, 5, 8, 9]
        (hexEncode [1, 2]) (hexEncode [1, 2]) "ML-KEM-768"
        [72, 105]).2.2 = Except.ok [72, 105] ∧
    (phase3_main capRoundTrip [9, 9] [3, 1, 4, 1, 5, 9, 2, 6, 5, 3, 5, 8, 9]
        (hexEncode [1, 2]) (hexEncode [1, 2]) "ML-KEM-768"
        [72, 105]).1 =
      (phase3_main capRoundTrip [9, 9] [3, 1, 4, 1, 5, 9, 2, 6, 5, 3, 5, 8, 9]
        (hexEncode [1, 2]) (hexEncode [1, 2]) "ML-KEM-768"
        [72, 105]).2.1 :=
  phase3_round_trip capRoundTrip "ML-KEM-768" [1, 2] [1, 2] [72, 105]
    [9, 9] [3, 1, 4, 1, 5, 9, 2, 6, 5, 3, 5, 8, 9]
    (fun _ => rfl) (fun _ _ _ _ => rfl)

/-- C2: tamper detection with total discard. Under the AEAD contract of the
spec (every single-bit flip of the sealed ciphertext is rejected, and any
bit flip of the associated data is rejected), `decrypt_payload` fails with
`AuthenticationFailed` — it does not crash and it returns no plaintext,
not even partial: the result is an `error`, never an `ok`.  The first
conjunct needs no contract at all: whenever the AEAD capability rejects an
altered record, `decrypt_payload` surfaces exactly
`AuthenticationFailed`. -/
theorem decrypt_payload_tamper (cap : Capability)
    (k n pt ad ct' ad' : List Nat) (i j : Nat)
    (hrej : cap.aesgcmDecrypt k n (hexDecode ct') ad' = none)
    (hi : i < 8 * (cap.aesgcmEncrypt k n pt ad).length)
    (hflip : cap.aesgcmDecrypt k n
      (flipBit (cap.aesgcmEncrypt k n pt ad) i) ad = none)
    (hj : j < 8 * ad.length)
    (hadflip : cap.aesgcmDecrypt k n (cap.aesgcmEncrypt k n pt ad)
      (flipBit ad j) = none) :
    decrypt_payload cap k (hexEncode n) ct' ad' =
      Except.error TunnelError.AuthenticationFailed ∧
    decrypt_payload cap k (hexEncode n)
        (hexEncode (flipBit (cap.aesgcmEncrypt k n pt ad) i)) ad =
      Except.error TunnelError.AuthenticationFailed ∧
    decrypt_payload cap k (hexEncode n)
        (hexEncode (cap.aesgcmEncrypt k n pt ad)) (flipBit ad j) =
      Except.error TunnelError.AuthenticationFailed ∧
    (∀ p, decrypt_payload cap k (hexEncode n)
        (hexEncode (flipBit (cap.aesgcmEncrypt k n pt ad) i)) ad ≠
      Except.ok p) := by
  simp [decrypt_payload, hexDecode_hexEncode, hrej, hflip, hadflip]

/-- A capability whose AEAD open rejects everything: it satisfies every
rejection hypothesis of the tamper theorem. -/
def capReject : Capability where
  encapSecret := fun _ pk r => (r, pk ++ r)
  decapSecret := fun _ sk ct => sk ++ ct
  hkdfSHA3_256 := fun _ len _ ikm => (ikm ++ List.replicate len 0).take len
  aesgcmEncrypt := fun _ _ pt _ => pt
  aesgcmDecrypt := fun _ _ _ _ => none

theorem decrypt_payload_tamper_witness :
    decrypt_payload capReject [7] (hexEncode [1, 2]) [3, 3] [5] =
      Except.error TunnelError.AuthenticationFailed ∧
    decrypt_payload capReject [7] (hexEncode [1, 2])
        (hexEncode (flipBit (capReject.aesgcmEncrypt [7] [1, 2] [8, 8] [5]) 0))
        [5] =
      Except.error TunnelError.AuthenticationFailed ∧
    decrypt_payload capReject [7] (hexEncode [1, 2])
        (hexEncode (capReject.aesgcmEncrypt [7] [1, 2] [8, 8] [5]))
        (flipBit [5] 0) =
      Except.error TunnelError.AuthenticationFailed ∧
    (∀ p, decrypt_payload capReject [7] (hexEncode [1, 2])
        (hexEncode (flipBit (capReject.aesgcmEncrypt [7] [1, 2] [8, 8] [5]) 0))
        [5] ≠ Except.ok p) :=
  decrypt_payload_tamper capReject [7] [1, 2] [8, 8] [5] [3, 3] [5] 0 0
    rfl (by decide) rfl (by decide) rfl

/-- C6: nonce freshness. `encrypt_payload` draws its nonce as exactly the
first 12 bytes of the fresh `os.urandom` stream of that invocation (so it
is 12 bytes long whenever the source supplies at least 12), it retains no
state — the result is a pure function of its arguments — and two
invocations whose 12-byte random samples differ produce different nonces,
even under the same session key and plaintext. -/
theorem encrypt_payload_nonce_fresh (cap : Capability)
    (aes_key plaintext r r2 : List Nat)
    (hr : 12 ≤ r.length)
    (hdiff : r.take 12 ≠ r2.take 12) :
    (encrypt_payload cap r aes_key plaintext).1 = hexEncode (r.take 12) ∧
    (r.take 12).length = 12 ∧
    (encrypt_payload cap r aes_key plaintext).1 ≠
      (encrypt_payload cap r2 aes_key plaintext).1 := by
  refine ⟨rfl, ?_, ?_⟩
  · simp [List.length_take]
    omega
  · intro h
    exact hdiff (hexEncode_injective h)

theorem encrypt_payload_nonce_fresh_witness :
    (encrypt_payload capRoundTrip [1, 2, 3, 4, 5, 6, 7, 8, 9, 10, 11, 12]
        [0] [42]).1 =
      hexEncode ([1, 2, 3, 4, 5, 6, 7, 8, 9, 10, 11, 12].take 12) ∧
    (([1, 2, 3, 4, 5, 6, 7, 8, 9, 10, 11, 12] : List Nat).take 12).length
      = 12 ∧
    (encrypt_payload capRoundTrip [1, 2, 3, 4, 5, 6, 7, 8, 9, 10, 11, 12]
        [0] [42]).1 ≠
      (encrypt_payload capRoundTrip [2, 2, 3, 4, 5, 6, 7, 8, 9, 10, 11, 12]
        [0] [42]).1 :=
  encrypt_payload_nonce_fresh capRoundTrip [0] [42]
    [1, 2, 3, 4, 5, 6, 7, 8, 9, 10, 11, 12]
    [2, 2, 3, 4, 5, 6, 7, 8, 9, 10, 11, 12]
    (by decide) (by decide)

/-- C7: key-derivation postcondition. `derive_aes_key` is a single HKDF
call over SHA3-256 with no salt and the given domain-separation context;
under the HKDF contract (the capability returns the requested output
length) the session key is exactly 32 bytes; and equal shared secrets with
equal context yield equal session keys. -/
theorem derive_aes_key_spec (cap : Capability) (ss ctx ss2 ctx2 : List Nat)
    (hlen : (cap.hkdfSHA3_256 none 32 ctx ss).length = 32)
    (hss : ss = ss2) (hctx : ctx = ctx2) :
    derive_aes_key cap ss ctx = cap.hkdfSHA3_256 none 32 ctx ss ∧
    (derive_aes_key cap ss ctx).length = 32 ∧
    derive_aes_key cap ss ctx = derive_aes_key cap ss2 ctx2 := by
  subst hss
  subst hctx
  exact ⟨rfl, hlen, rfl⟩

theorem derive_aes_key_spec_witness :
    derive_aes_key capRoundTrip [4, 4] icarusContext =
      capRoundTrip.hkdfSHA3_256 none 32 icarusContext [4, 4] ∧
    (derive_aes_key capRoundTrip [4, 4] icarusContext).length = 32 ∧
    derive_aes_key capRoundTrip [4, 4] icarusContext =
      derive_aes_key capRoundTrip [4, 4] icarusContext :=
  derive_aes_key_spec capRoundTrip [4, 4] icarusContext [4, 4] icarusContext
    (by decide) rfl rfl

/-- The mutable state of `GravityFieldDecoherenceSimulator`: `coherence`,
`decay_rate`, the rounded `history` and the `tick` counter. Python floats
are modelled as exact rationals. -/
structure SimState where
  coherence : ℚ
  decay_rate : ℚ
  history : List ℚ
  tick : ℕ
deriving DecidableEq, Repr

/-- `GravityFieldDecoherenceSimulator.__init__`: stores the arguments as
given, with empty history and tick 0 (the constructor performs no
validation). -/
def SimState.init (initial_coherence decay_rate : ℚ) : SimState :=
  ⟨initial_coherence, decay_rate, [], 0⟩

/-- Python `round(x, 4)`, modelled as rounding to the nearest multiple of
1/10000 (`round` resolves the measure-zero tie case, where CPython uses
ties-to-even on binary floats). -/
def round4 (q : ℚ) : ℚ := (round (q * 10000) : ℤ) / 10000

/-- `GravityFieldDecoherenceSimulator.step`: exponential decay, then the
`random.gauss(0, perturbation_noise)` sample (passed here as the oracle
argument `noise`; it is `0` when the noise magnitude is `0`) is added and
the result clamped to [0, 1]; the tick is incremented and the rounded
coherence appended to the history. -/
def SimState.step (s : SimState) (noise : ℚ) : SimState :=
  let decayed := s.coherence * (1 - s.decay_rate)
  let clamped := max 0 (min 1 (decayed + noise))
  ⟨clamped, s.decay_rate, s.history ++ [round4 clamped], s.tick + 1⟩

/-- Driving the simulator through one `step` per element of `noises`. -/
def stepMany (s : SimState) (noises : List ℚ) : SimState :=
  noises.foldl SimState.step s

/-- `is_coherent`. -/
def SimState.is_coherent (s : SimState) (threshold : ℚ) : Bool :=
  s.coherence ≥ threshold

/-- One entry of `CryptographicAgility.ALGORITHM_CHAIN`. -/
structure AlgorithmDescriptor where
  name : String
  pqc : Bool
  nist_level : Option ℕ
  status : String
deriving DecidableEq, Repr

/-- `CryptographicAgility.ALGORITHM_CHAIN`, rank 0 first. -/
def ALGORITHM_CHAIN : List AlgorithmDescriptor :=
  [⟨"ML-KEM-768", true, some 3, "PRIMARY"⟩,
   ⟨"ML-KEM-1024", true, some 5, "FALLBACK-1"⟩,
   ⟨"ML-DSA-65+AES", true, some 3, "FALLBACK-2"⟩,
   ⟨"X25519+AES256", false, none, "EMERGENCY (classical)"⟩]

/-- `CryptographicAgility.negotiate_algorithm`: first matching coherence
band wins, comparisons strict on the high side. -/
def negotiate_algorithm (field_coherence : ℚ) : AlgorithmDescriptor :=
  if field_coherence > 7/10 then ALGORITHM_CHAIN[0]
  else if field_coherence > 4/10 then ALGORITHM_CHAIN[1]
  else if field_coherence > 2/10 then ALGORITHM_CHAIN[2]
  else ALGORITHM_CHAIN[3]

/-- C3: negotiator band mapping. For every coherence value the selected
descriptor is rank 0 exactly when value > 0.7, rank 1 exactly when
0.4 < value ≤ 0.7, rank 2 exactly when 0.2 < value ≤ 0.4 and rank 3
exactly when value ≤ 0.2; in particular 0.75 ↦ rank 0, 0.5 ↦ rank 1,
0.3 ↦ rank 2, 0.1 ↦ rank 3, and the exact boundary 0.7 ↦ rank 1. -/
theorem negotiate_algorithm_bands (c : ℚ) :
    (negotiate_algorithm c = ALGORITHM_CHAIN[0] ↔ 7/10 < c) ∧
    (negotiate_algorithm c = ALGORITHM_CHAIN[1] ↔ 4/10 < c ∧ c ≤ 7/10) ∧
    (negotiate_algorithm c = ALGORITHM_CHAIN[2] ↔ 2/10 < c ∧ c ≤ 4/10) ∧
    (negotiate_algorithm c = ALGORITHM_CHAIN[3] ↔ c ≤ 2/10) ∧
    negotiate_algorithm (75/100) = ALGORITHM_CHAIN[0] ∧
    negotiate_algorithm (5/10) = ALGORITHM_CHAIN[1] ∧
    negotiate_algorithm (3/10) = ALGORITHM_CHAIN[2] ∧
    negotiate_algorithm (1/10) = ALGORITHM_CHAIN[3] ∧
    negotiate_algorithm (7/10) = ALGORITHM_CHAIN[1] := by
  have e0 : negotiate_algorithm (75/100) = ALGORITHM_CHAIN[0] := by
    unfold negotiate_algorithm
    rw [if_pos (by norm_num)]
  have e1 : negotiate_algorithm (5/10) = ALGORITHM_CHAIN[1] := by
    unfold negotiate_algorithm
    rw [if_neg (by norm_num), if_pos (by norm_num)]
  have e2 : negotiate_algorithm (3/10) = ALGORITHM_CHAIN[2] := by
    unfold negotiate_algorithm
    rw [if_neg (by norm_num), if_neg (by norm_num), if_pos (by norm_num)]
  have e3 : negotiate_algorithm (1/10) = ALGORITHM_CHAIN[3] := by
    unfold negotiate_algorithm
    rw [if_neg (by norm_num), if_neg (by norm_num), if_neg (by norm_num)]
  have e4 : negotiate_algorithm (7/10) = ALGORITHM_CHAIN[1] := by
    unfold negotiate_algorithm
    rw [if_neg (by norm_num), if_pos (by norm_num)]
  refine ⟨?_, ?_, ?_, ?_, e0, e1, e2, e3, e4⟩ <;>
    unfold negotiate_algorithm <;> split_ifs with h1 h2 h3 <;>
    simp [ALGORITHM_CHAIN] <;>
    first
      | linarith
      | (constructor <;> linarith)
      | (intro h
         linarith)

/-- C4: the health-monitor transition. Each step updates the coherence to
clamp(value · (1 − d) + noise, 0, 1) where `noise` is the Gaussian sample
of that tick, and increments the tick by 1; in the deterministic case
(initial value 1, decay 0.1, zero noise magnitude, hence a zero Gaussian
sample) one tick yields exactly 0.9. -/
theorem step_transition (s : SimState) (noise : ℚ) :
    (s.step noise).coherence =
      max 0 (min 1 (s.coherence * (1 - s.decay_rate) + noise)) ∧
    (s.step noise).tick = s.tick + 1 ∧
    ((SimState.init 1 (1/10)).step 0).coherence = 9/10 := by
  refine ⟨rfl, rfl, ?_⟩
  show max 0 (min 1 ((1 : ℚ) * (1 - 1/10) + 0)) = 9/10
  rw [min_def, max_def]
  norm_num

theorem step_coherence_nonneg (s : SimState) (noise : ℚ) :
    0 ≤ (s.step noise).coherence :=
  le_max_left 0 _

theorem step_coherence_le_one (s : SimState) (noise : ℚ) :
    (s.step noise).coherence ≤ 1 :=
  max_le (by norm_num) (min_le_left 1 _)

theorem stepMany_bounds_aux (ns : List ℚ) (s : SimState)
    (h0 : 0 ≤ s.coherence) (h1 : s.coherence ≤ 1) :
    0 ≤ (stepMany s ns).coherence ∧ (stepMany s ns).coherence ≤ 1 := by
  induction ns generalizing s with
  | nil => exact ⟨h0, h1⟩
  | cons n rest ih =>
      exact ih (s.step n) (step_coherence_nonneg s n) (step_coherence_le_one s n)

/-- C5: health-monitor bounds invariant. For any decay rate in (0, 1), any
noise magnitude (the Gaussian samples of the ticks are the arbitrary
rationals in `noises`, so any magnitude σ ≥ 0 is covered) and any number
of step calls, the coherence value stays within [0, 1] whenever the
initial value is in [0, 1]. -/
theorem monitor_bounds (initial d : ℚ) (noises : List ℚ)
    (hd0 : 0 < d) (hd1 : d < 1) (h0 : 0 ≤ initial) (h1 : initial ≤ 1) :
    0 ≤ (stepMany (SimState.init initial d) noises).coherence ∧
    (stepMany (SimState.init initial d) noises).coherence ≤ 1 :=
  stepMany_bounds_aux noises (SimState.init initial d) h0 h1

theorem monitor_bounds_witness :
    0 ≤ (stepMany (SimState.init 1 (1/2)) [5, -3, 1/4]).coherence ∧
    (stepMany (SimState.init 1 (1/2)) [5, -3, 1/4]).coherence ≤ 1 :=
  monitor_bounds 1 (1/2) [5, -3, 1/4] (by norm_num) (by norm_num)
    (by norm_num) (by norm_num)

/-- The suite-change signal as `run_decoherence_timeline` computes it:
Python's `algo["name"] != previous_algo and previous_algo` is falsy when
there is no previous selection and otherwise true exactly when the newly
selected name differs from the previous one. -/
def suite_changed_signal (previous_algo : Option String)
    (algoName : String) : Bool :=
  match previous_algo with
  | none => false
  | some p => algoName != p

/-- Each `negotiate_algorithm` call selects one of the four chain
entries. -/
theorem negotiate_algorithm_cases (c : ℚ) :
    negotiate_algorithm c = ALGORITHM_CHAIN[0] ∨
    negotiate_algorithm c = ALGORITHM_CHAIN[1] ∨
    negotiate_algorithm c = ALGORITHM_CHAIN[2] ∨
    negotiate_algorithm c = ALGORITHM_CHAIN[3] := by
  unfold negotiate_algorithm
  split_ifs <;> simp

/-- C8: suite-change reporting. The negotiation loop reports, next to the
selected descriptor, a boolean signal that — whenever a previous selection
exists — is true exactly when the newly selected descriptor differs from
the previously selected one; with no previous selection the signal is
false. The only history consulted is the single previous selection (the
`previous_algo` name), as the signal's definition shows. -/
theorem suite_change_report (prevC c : ℚ) :
    (suite_changed_signal (some (negotiate_algorithm prevC).name)
        (negotiate_algorithm c).name = true ↔
      negotiate_algorithm c ≠ negotiate_algorithm prevC) ∧
    suite_changed_signal none (negotiate_algorithm c).name = false := by
  refine ⟨?_, rfl⟩
  rcases negotiate_algorithm_cases prevC with hp | hp | hp | hp <;>
    rcases negotiate_algorithm_cases c with hc | hc | hc | hc <;>
    rw [hp, hc] <;> simp [suite_changed_signal, ALGORITHM_CHAIN]

/-- The constructor the spec describes, for comparison with the source's:
out-of-range configuration — a decay rate outside (0, 1), e.g. negative —
is a constructor-time validation failure. -/
inductive ConfigError where
  | OutOfRange
deriving DecidableEq, Repr

/-- Modelled from the spec for comparison only: `validation failure at
construction time` for an out-of-range decay rate. The source constructor
`SimState.init` performs no such check. -/
def initValidated (initial_coherence decay_rate : ℚ) :
    Except ConfigError SimState :=
  if 0 < decay_rate ∧ decay_rate < 1 then
    Except.ok (SimState.init initial_coherence decay_rate)
  else Except.error ConfigError.OutOfRange

/-- C9 counterexample: constructing the monitor with the negative decay
rate −0.1 succeeds and silently stores the out-of-range value — the
source constructor validates nothing — while the spec-described
constructor rejects the same input. -/
theorem init_accepts_negative_decay :
    SimState.init 1 (-(1/10)) =
      ⟨1, -(1/10), [], 0⟩ ∧
    initValidated 1 (-(1/10)) = Except.error ConfigError.OutOfRange := by
  refine ⟨rfl, ?_⟩
  unfold initValidated
  rw [if_neg]
  intro h
  have := h.1
  norm_num at this

/-- C9 (amended): the Health Monitor's step and the Negotiator's
`negotiate_algorithm` are total — `step` always produces the clamped next
state and the negotiator always returns one of the four chain entries —
but out-of-range configuration is NOT rejected at construction time: the
constructor stores any decay rate (for example a negative one)
unvalidated. -/
theorem monitor_negotiator_totality :
    (∀ initial d : ℚ, SimState.init initial d =
      ⟨initial, d, [], 0⟩) ∧
    (∀ (s : SimState) (noise : ℚ), (s.step noise).tick = s.tick + 1 ∧
      0 ≤ (s.step noise).coherence ∧ (s.step noise).coherence ≤ 1) ∧
    (∀ c : ℚ, negotiate_algorithm c ∈ ALGORITHM_CHAIN) := by
  refine ⟨fun _ _ => rfl,
    fun s noise =>
      ⟨rfl, step_coherence_nonneg s noise, step_coherence_le_one s noise⟩,
    fun c => ?_⟩
  rcases negotiate_algorithm_cases c with h | h | h | h <;> rw [h] <;>
    simp [ALGORITHM_CHAIN]

theorem stepMany_concat (s : SimState) (ns : List ℚ) (n : ℚ) :
    stepMany s (ns ++ [n]) = (stepMany s ns).step n := by
  unfold stepMany
  rw [List.foldl_append]
  rfl

theorem step_history (s : SimState) (n : ℚ) :
    (s.step n).history = s.history ++ [round4 (s.step n).coherence] := rfl

theorem stepMany_history (s : SimState) (ns : List ℚ) :
    (stepMany s ns).history = s.history ++
      (List.range ns.length).map
        (fun k => round4 (stepMany s (ns.take (k + 1))).coherence) := by
  induction ns using List.reverseRecOn with
  | nil => simp [stepMany]
  | append_singleton ns n ih =>
      rw [stepMany_concat, step_history, ih, ← stepMany_concat]
      rw [List.length_append, List.length_singleton, List.range_succ,
        List.map_append, ← List.append_assoc]
      congr 1
      · congr 1
        apply List.map_congr_left
        intro k hk
        rw [List.mem_range] at hk
        rw [List.take_append_of_le_length (by omega)]
      · rw [List.map_singleton]
        congr 2
        rw [show ns.length + 1 = (ns ++ [n]).length by simp, List.take_length]

theorem stepMany_tick (s : SimState) (ns : List ℚ) :
    (stepMany s ns).tick = s.tick + ns.length := by
  induction ns generalizing s with
  | nil => rfl
  | cons n rest ih =>
      show (stepMany (s.step n) rest).tick = s.tick + (rest.length + 1)
      rw [ih (s.step n)]
      show s.tick + 1 + rest.length = s.tick + (rest.length + 1)
      omega

/-- C10: monitor bookkeeping invariant. After any sequence of n steps on a
freshly constructed simulator, `tick` equals n, `history` has exactly n
entries, and the k-th entry is the coherence value immediately after the
(k+1)-st step, rounded to 4 decimal places (the history equals the full
list of per-prefix rounded coherence values). In this functional embedding
`step` is the only state-to-state operation — `is_coherent` (and the
display helpers left unmodelled) only read the state. -/
theorem monitor_bookkeeping (initial d : ℚ) (noises : List ℚ) :
    (stepMany (SimState.init initial d) noises).tick = noises.length ∧
    (stepMany (SimState.init initial d) noises).history.length =
      noises.length ∧
    (stepMany (SimState.init initial d) noises).history =
      (List.range noises.length).map
        (fun k => round4 (stepMany (SimState.init initial d)
          (noises.take (k + 1))).coherence) := by
  refine ⟨?_, ?_, ?_⟩
  · rw [stepMany_tick]
    simp [SimState.init]
  · rw [stepMany_history]
    simp [SimState.init]
  · rw [stepMany_history]
    simp [SimState.init]
